import Mathlib

set_option maxRecDepth 100000

/-!
Verification of the response-interpretation and cost-estimation logic of
`datachecker.py` (a single-file Streamlit application).  Python text is
embedded shallowly: strings become `List Char`, the two regex scans over the
model reply are implemented as explicit backtracking matchers with the same
semantics as the patterns in the source, money amounts become exact
rationals, and the session state mutated by `make_api_request` becomes an
explicit `AppState` value threaded through the function.  `list(set(xs))`
has an unspecified iteration order in Python, so deduplication is modelled
as a relation: any duplicate-free list with exactly the elements of `xs` is
a permitted output.
-/

/-! ## Cost estimation (`calculate_cost`, datachecker.py lines 110-121) -/

/-- The pricing dict of `calculate_cost` together with the `model in pricing`
membership test: `some (inputRate, outputRate)` for the three known models,
`none` otherwise.  Rates are per 1K tokens, as in the source. -/
def pricing (model : String) : Option (ℚ × ℚ) :=
  if model = "sonar" then some (0.0003, 0.0015)
  else if model = "sonar-pro" then some (0.001, 0.005)
  else if model = "sonar-reasoning" then some (0.002, 0.01)
  else none

/-- `calculate_cost` (lines 110-121): for a known model
`(input_tokens * pricing[model]["input"] / 1000) +
 (output_tokens * pricing[model]["output"] / 1000)`, else the default
estimate `0.001`. -/
def calculate_cost (model : String) (input_tokens output_tokens : Nat) : ℚ :=
  match pricing model with
  | some p => (input_tokens * p.1 / 1000) + (output_tokens * p.2 / 1000)
  | none => 0.001

/-! ## Image-URL extraction (datachecker.py lines 277-297)

Method 1 is `re.findall(r'https?://[^\s<>"]+\.(?:jpg|jpeg|png|webp|gif)',
image_data, re.IGNORECASE)`.  Method 2 splits the reply on newlines and, for
every line whose lowercase form contains "http", takes the first
(case-sensitive) match of `https?://[^\s<>"]+` and keeps it when one of the
dotted extensions occurs anywhere in its lowercase form. -/

/-- The character class `[^\s<>"]` of both URL regexes.  Python `\s` is
`[ \t\n\r\f\v]` (ASCII; the replies handled here are ASCII). -/
def urlChar (c : Char) : Bool :=
  !(c = ' ' || c = '\t' || c = '\n' || c = '\r' || c = '\x0b' || c = '\x0c'
    || c = '<' || c = '>' || c = '"')

/-- Case-insensitive literal match (the effect of `re.IGNORECASE` on the
ASCII literals of the pattern): consume `pat` from the front of `s`,
returning the rest of `s`. -/
def stripCI : List Char → List Char → Option (List Char)
  | [], s => some s
  | _, [] => none
  | p :: ps, c :: cs => if c.toLower = p.toLower then stripCI ps cs else none

/-- Length consumed by `https?://` (case-insensitively) at the front of `s`;
the greedy `s?` prefers the 8-character form. -/
def schemeLenCI (s : List Char) : Option Nat :=
  match stripCI "https://".data s with
  | some _ => some 8
  | none =>
    match stripCI "http://".data s with
    | some _ => some 7
    | none => none

/-- The extension alternation `(?:jpg|jpeg|png|webp|gif)` in source order. -/
def image_exts : List (List Char) :=
  ["jpg".data, "jpeg".data, "png".data, "webp".data, "gif".data]

/-- Length of `\.(?:jpg|jpeg|png|webp|gif)` matched case-insensitively at the
front of `s` (dot plus extension), if any. -/
def extAt (s : List Char) : Option Nat :=
  match s with
  | [] => none
  | c :: rest =>
    if c = '.' then
      image_exts.findSome? fun e =>
        if (stripCI e rest).isSome then some (1 + e.length) else none
    else none

/-- Greedy backtracking of `[^\s<>"]+\.(?:jpg|...)` after the scheme: try the
largest consumption `L` of the character class first (down to 1) and require
`\.ext` right after it; returns the total matched length after the scheme. -/
def bestMatchLen (rest : List Char) : Nat → Option Nat
  | 0 => none
  | Nat.succ l =>
    match extAt (rest.drop (Nat.succ l)) with
    | some k => some (Nat.succ l + k)
    | none => bestMatchLen rest l

/-- Length of a Method-1 match anchored at the front of `s`, if any. -/
def urlMatchLen (s : List Char) : Option Nat :=
  match schemeLenCI s with
  | none => none
  | some sl =>
    match bestMatchLen (s.drop sl) ((s.drop sl).takeWhile urlChar).length with
    | none => none
    | some m => some (sl + m)

/-- `re.findall` scan: leftmost non-overlapping matches, resuming after each
match.  `fuel` bounds the recursion; every step advances at least one
character, so `fuel = s.length` reproduces the full scan. -/
def url_pattern_findall_aux (fuel : Nat) (s : List Char) : List (List Char) :=
  match fuel with
  | 0 => []
  | Nat.succ f =>
    match s with
    | [] => []
    | _ :: rest =>
      match urlMatchLen s with
      | some m => s.take m :: url_pattern_findall_aux f (s.drop m)
      | none => url_pattern_findall_aux f rest

/-- Method 1 (lines 281-283): all `found_urls` of the ignore-case regex. -/
def url_pattern_findall (s : List Char) : List (List Char) :=
  url_pattern_findall_aux s.length s

/-- Python `'\n'.split` semantics: `"".split` gives `[""]`, a trailing
newline yields a trailing empty line. -/
def splitOnNl (s : List Char) : List (List Char) :=
  match s with
  | [] => [[]]
  | c :: rest =>
    if c = '\n' then [] :: splitOnNl rest
    else
      match splitOnNl rest with
      | [] => [[c]]
      | line :: more => (c :: line) :: more

/-- Python `pat in s` substring containment. -/
def isSubstr (pat : List Char) (s : List Char) : Bool :=
  match s with
  | [] => pat.isEmpty
  | _ :: rest => pat.isPrefixOf s || isSubstr pat rest

/-- Length consumed by `https?://` case-sensitively (Method 2's
`re.search` pattern has no IGNORECASE flag). -/
def schemeLenCS (s : List Char) : Option Nat :=
  if "https://".data.isPrefixOf s then some 8
  else if "http://".data.isPrefixOf s then some 7
  else none

/-- `re.search(r'https?://[^\s<>"]+', line)` (line 290): the leftmost match,
greedy run of `[^\s<>"]` after a case-sensitive scheme; a scheme followed by
no class character is no match and the scan moves on. -/
def searchUrlAux (fuel : Nat) (s : List Char) : Option (List Char) :=
  match fuel with
  | 0 => none
  | Nat.succ f =>
    match s with
    | [] => none
    | _ :: rest =>
      match schemeLenCS s with
      | some sl =>
        let run := (s.drop sl).takeWhile urlChar
        if run.isEmpty then searchUrlAux f rest
        else some (s.take (sl + run.length))
      | none => searchUrlAux f rest

/-- The dotted extensions of line 293, in source order. -/
def exts_with_dot : List (List Char) :=
  [".jpg".data, ".jpeg".data, ".png".data, ".webp".data, ".gif".data]

/-- `any(ext in url.lower() for ext in [...])` (line 293): an extension
occurs anywhere in the lowercased URL. -/
def hasImageExtCI (url : List Char) : Bool :=
  exts_with_dot.any fun e => isSubstr e (url.map Char.toLower)

/-- An extension is the literal suffix of the lowercased URL (hence of its
path component for a query-free URL) — the acceptance test claimed by the
spec, for comparison with the substring test the code performs. -/
def endsWithImageExtCI (url : List Char) : Bool :=
  exts_with_dot.any fun e => e.isSuffixOf (url.map Char.toLower)

/-- Method 2 (lines 286-294): per line containing "http" (case-folded),
the first URL token, kept when `hasImageExtCI` holds. -/
def line_scan_urls (reply : List Char) : List (List Char) :=
  (splitOnNl reply).filterMap fun line =>
    if isSubstr "http".data (line.map Char.toLower) then
      match searchUrlAux line.length line with
      | some url => if hasImageExtCI url then some url else none
      | none => none
    else none

/-- The `image_urls` list right before deduplication: Method 1's matches
followed by Method 2's appends (lines 277-294). -/
def image_urls_candidates (reply : List Char) : List (List Char) :=
  url_pattern_findall reply ++ line_scan_urls reply

/-- `image_urls = list(set(image_urls))` (line 297): a Python set has an
unspecified iteration order, so the permitted outputs are exactly the
duplicate-free lists holding the same elements as the input. -/
def list_set_outputs (xs ys : List (List Char)) : Prop :=
  ys.Nodup ∧ ∀ u, u ∈ ys ↔ u ∈ xs

/-- The whole extraction (lines 277-297) as a relation from the reply to a
permitted value of `image_urls` after deduplication. -/
def extract_image_urls_rel (reply : String) (ys : List (List Char)) : Prop :=
  list_set_outputs (image_urls_candidates reply.data) ys

/-! ## `make_api_request` (datachecker.py lines 123-186)

The Streamlit session state touched by the function is `st.session_state.
total_cost` and `st.session_state.api_calls`; it becomes an explicit
`AppState` input and output.  The outcome of `requests.post` (timeout,
other exception, or an HTTP response whose body may or may not parse as
JSON) is an explicit input.  `requests.Response.raise_for_status` raises
exactly for statuses 400-599. -/

/-- One entry of `st.session_state.api_calls` (lines 172-177); the
`datetime.now()` timestamp is passed in as `now`. -/
structure ApiCall where
  timestamp : String
  type : String
  cost : ℚ
  tokens : Nat
deriving DecidableEq

/-- The cost-tracking session state (lines 50-53). -/
structure AppState where
  total_cost : ℚ
  api_calls : List ApiCall
deriving DecidableEq

/-- The optional `usage` object of a successful response body. -/
structure Usage where
  prompt_tokens : Option Nat
  completion_tokens : Option Nat
deriving DecidableEq

/-- A response body that parsed as JSON: the parts of it the script reads.
`errorMessage` is `body["error"]["message"]` when present (read in the 400
branch), `content` is `body["choices"][0]["message"]["content"]` (read by
the callers of `make_api_request`). -/
structure ResponseJson where
  errorMessage : Option String
  usage : Option Usage
  content : String
deriving DecidableEq

/-- Outcome of the `requests.post` call: timeout, some other exception, or
an HTTP response with a status code and a body (`none` when the body does
not parse as JSON, so that `response.json()` raises). -/
inductive HttpOutcome where
  | timeout
  | exn (msg : String)
  | resp (status : Nat) (body : Option ResponseJson)
deriving DecidableEq

/-- The error the function surfaces through `st.error`, by branch:
`badRequest` for 400 with the server message (line 151), `invalidApiKey`
for 401, `rateLimited` for 429, `httpStatusError` for the
`raise_for_status` exception (whose text carries the status code),
`jsonDecodeError` when `response.json()` raises, `timedOut` for
`requests.exceptions.Timeout`, `apiError` for any other exception. -/
inductive ApiReport where
  | badRequest (msg : String)
  | invalidApiKey
  | rateLimited
  | httpStatusError (status : Nat)
  | jsonDecodeError
  | timedOut
  | apiError (msg : String)
deriving DecidableEq

/-- `make_api_request` (lines 123-186): returns the updated session state,
the parsed result (`None` on every failure path), and the surfaced error
(if any).  Cost is computed from `usage.get('prompt_tokens', 100)` and
`usage.get('completion_tokens', 100)` with `usage = result.get('usage',
{})` and recorded only on the success path (lines 164-177). -/
def make_api_request (s : AppState) (model search_type_name now : String)
    (out : HttpOutcome) : AppState × Option ResponseJson × Option ApiReport :=
  match out with
  | .timeout => (s, none, some .timedOut)
  | .exn m => (s, none, some (.apiError m))
  | .resp status body =>
    if status = 400 then
      match body with
      | none => (s, none, some .jsonDecodeError)
      | some b => (s, none, some (.badRequest (b.errorMessage.getD "Invalid request format")))
    else if status = 401 then (s, none, some .invalidApiKey)
    else if status = 429 then (s, none, some .rateLimited)
    else if 400 ≤ status ∧ status < 600 then (s, none, some (.httpStatusError status))
    else
      match body with
      | none => (s, none, some .jsonDecodeError)
      | some b =>
        let input_tokens := (b.usage.getD ⟨none, none⟩).prompt_tokens.getD 100
        let output_tokens := (b.usage.getD ⟨none, none⟩).completion_tokens.getD 100
        let cost := calculate_cost model input_tokens output_tokens
        ({ total_cost := s.total_cost + cost,
           api_calls := s.api_calls ++
             [{ timestamp := now, type := search_type_name, cost := cost,
                tokens := input_tokens + output_tokens }] },
         some b, none)

/-! ## Prompt construction (`search_text_data`, lines 188-199) -/

/-- Text of the property prompt before the interpolated query. -/
def text_prompt_head : List Char :=
  "Find key information about this property: \"".data

/-- Text of the property prompt after the interpolated query. -/
def text_prompt_tail : List Char :=
  ("\"\n\nInclude:\n- RERA details and status\n- Builder/developer name\n" ++
   "- Pricing for different configurations\n- Project specifications\n" ++
   "- Location and connectivity\n\nKeep response concise and factual.").data

/-- The f-string prompt of `search_text_data` (lines 190-199). -/
def text_data_prompt (query : List Char) : List Char :=
  text_prompt_head ++ query ++ text_prompt_tail

/-! ## Outbound calls of one image-search action (lines 263-317)

The image tab calls `search_images` once; when that call returns a truthy
(non-empty) reply whose extraction yields no URLs, it makes one more
`make_api_request` with a simpler prompt (`"Simple Image Search"`, lines
299-317).  A failed first call (`None`) triggers no follow-up. -/

/-- The `search_type_name` tags of the `make_api_request` invocations made
by one image-search action, as a function of what `search_images` returned
(`none` when the first call failed, otherwise the reply content). -/
def image_tab_call_tags (image_data : Option String) : List String :=
  match image_data with
  | none => ["Image Search"]
  | some content =>
    if content = "" then ["Image Search"]
    else if image_urls_candidates content.data = [] then
      ["Image Search", "Simple Image Search"]
    else ["Image Search"]

/-! ## Structured property extraction (spec sections 4.2 and 8)

No JSON property-record extraction exists in `src/datachecker.py`
(`search_text_data` passes the raw reply to the UI unparsed), so the
candidate-locating stage is modelled from the specification. -/

/-- Failure conditions of `extractPropertyRecord` named by the spec. -/
inductive ExtractionFailure where
  | NO_JSON_FOUND
  | MALFORMED_JSON
deriving DecidableEq

/-- Modelled from the spec: `extractPropertyRecord` is absent from the
source; spec section 4.2 defines its first stage as locating "the first
substring that starts at the first `\x7b` and ends at the last `\x7d` in
the reply (greedy outer-brace match)".  Drop everything before the first
opening brace, then everything after the last closing brace. -/
def jsonCandidate (reply : List Char) : Option (List Char) :=
  let fromBrace := reply.dropWhile fun c => c != '\x7b'
  let region := (fromBrace.reverse.dropWhile fun c => c != '\x7d').reverse
  if region.isEmpty then none else some region

/-- Modelled from the spec: the candidate-locating stage of
`extractPropertyRecord` (spec section 4.2), which fails with
`NO_JSON_FOUND` when no candidate region exists. -/
def extractPropertyRecordCandidate (reply : List Char) :
    Except ExtractionFailure (List Char) :=
  match jsonCandidate reply with
  | none => .error .NO_JSON_FOUND
  | some region => .ok region

/-! ## Concrete inputs used by the claims -/

/-- The reply of spec section 8's `extractImageUrls` example. -/
def c1_example : String := "See https://x.com/a.jpg and https://x.com/b.PNG"

def urlA : List Char := "https://x.com/a.jpg".data

def urlB : List Char := "https://x.com/b.PNG".data

/-- A reply whose only URL token carries an image extension at an interior
position of its path. -/
def c6_example : String := "URL: https://x.com/photo.jpg.html"

def c6_url : List Char := "https://x.com/photo.jpg.html".data

/-- Claim C4: for every known model identifier and non-negative token counts
the estimated cost equals `inputTokens * inputRate/1000 +
outputTokens * outputRate/1000` for that model's table entry; in particular
the cost for `"sonar"` with 1000 input and 1000 output tokens equals
`inputRate + outputRate`. -/
theorem calculate_cost_known_model (model : String) (i o : Nat) (ri ro : ℚ)
    (h : pricing model = some (ri, ro)) :
    calculate_cost model i o = i * ri / 1000 + o * ro / 1000 ∧
    calculate_cost "sonar" 1000 1000 = 0.0003 + 0.0015 := by
  constructor
  · simp [calculate_cost, h]
  · norm_num [calculate_cost, pricing]

theorem calculate_cost_known_model_witness :
    pricing "sonar" = some (0.0003, 0.0015) ∧
    calculate_cost "sonar" 2000 3000 = 2000 * 0.0003 / 1000 + 3000 * 0.0015 / 1000 := by
  refine ⟨by rfl, ?_⟩
  have h := calculate_cost_known_model "sonar" 2000 3000 0.0003 0.0015 (by rfl)
  simpa using h.1

/-- Claim C5: for every model identifier not in the pricing table and all
token counts, `calculate_cost` returns the fixed default estimate `0.001`,
independent of the token counts, without failing. -/
theorem calculate_cost_unknown_model_default (model : String) (i o : Nat)
    (h : pricing model = none) :
    calculate_cost model i o = 0.001 := by
  simp [calculate_cost, h]

theorem calculate_cost_unknown_model_default_witness :
    pricing "unknown-model" = none ∧
    calculate_cost "unknown-model" 100 100 = 0.001 := by
  refine ⟨by rfl, ?_⟩
  exact calculate_cost_unknown_model_default "unknown-model" 100 100 (by rfl)

/-! ## Claim C1: deduplication and ordering of extracted image URLs -/

theorem c1_candidates_eval :
    image_urls_candidates c1_example.data = [urlA, urlB, urlA] := by decide

theorem c1_rel_rev : extract_image_urls_rel c1_example [urlB, urlA] := by
  unfold extract_image_urls_rel list_set_outputs
  rw [c1_candidates_eval]
  refine ⟨by decide, fun u => ?_⟩
  simp only [List.mem_cons, List.not_mem_nil, or_false]
  tauto

/-- Claim C1 counterexample: `list(set(image_urls))` has an unspecified
order, so on the spec's example the extraction may return the two URLs in
the reversed order, contradicting "returns them in first-seen order". -/
theorem extract_image_urls_order_counterexample :
    extract_image_urls_rel c1_example [urlB, urlA] ∧
    [urlB, urlA] ≠ [urlA, urlB] :=
  ⟨c1_rel_rev, by decide⟩

/-- Claim C1 (amended): the extraction deduplicates the matched URLs, but in
an unspecified order rather than first-seen order; on the reply
`"See https://x.com/a.jpg and https://x.com/b.PNG"` every permitted output
is a permutation of the two URLs. -/
theorem extract_image_urls_dedup_unordered :
    (∀ reply ys, extract_image_urls_rel reply ys → ys.Nodup) ∧
    (∀ ys, extract_image_urls_rel c1_example ys → ys.Perm [urlA, urlB]) := by
  constructor
  · exact fun reply ys h => h.1
  · intro ys h
    have hn : ys.Nodup := h.1
    have hm := h.2
    simp only [extract_image_urls_rel, list_set_outputs, c1_candidates_eval] at hm
    refine (List.perm_ext_iff_of_nodup hn (by decide)).2 fun u => ?_
    rw [hm u]
    simp only [List.mem_cons, List.not_mem_nil, or_false]
    tauto

theorem extract_image_urls_dedup_unordered_witness :
    List.Perm [urlB, urlA] [urlA, urlB] :=
  extract_image_urls_dedup_unordered.2 [urlB, urlA] c1_rel_rev

/-! ## Claim C6: which URLs the scan accepts -/

/-- Claim C6 counterexample: the reply `"URL: https://x.com/photo.jpg.html"`
yields a URL that is accepted although `.jpg` occurs only at an interior
position of its path, not as its suffix. -/
theorem image_url_scan_interior_extension_counterexample :
    c6_url ∈ image_urls_candidates c6_example.data ∧
    endsWithImageExtCI c6_url = false := by decide

/-- Claim C6 (amended): the line scan (Method 2) accepts the first URL token
of a line whenever one of the extensions occurs anywhere in it
(case-insensitive substring test), not only as the suffix of its path; on
the counterexample reply the regex scan (Method 1) contributes the match
truncated at the extension while the line scan contributes the full token. -/
theorem image_url_scan_substring_acceptance :
    (∀ reply u, u ∈ line_scan_urls reply → hasImageExtCI u = true) ∧
    image_urls_candidates c6_example.data
      = ["https://x.com/photo.jpg".data, c6_url] := by
  constructor
  · intro reply u hu
    simp only [line_scan_urls, List.mem_filterMap] at hu
    obtain ⟨line, -, hf⟩ := hu
    split at hf
    · split at hf
      · split at hf
        · cases hf; assumption
        · cases hf
      · cases hf
    · cases hf
  · decide

theorem image_url_scan_substring_acceptance_witness :
    hasImageExtCI c6_url = true :=
  image_url_scan_substring_acceptance.1 c6_example.data c6_url (by decide)

/-! ## Claim C2: outbound calls per user action -/

/-- Claim C2 counterexample: when the first image-search call succeeds but
its reply contains no image-URL candidates, the image tab automatically
makes a second `make_api_request` with a simpler prompt (lines 299-317). -/
theorem image_tab_fallback_counterexample :
    image_tab_call_tags (some "I could not find any direct image links.")
      = ["Image Search", "Simple Image Search"] := by decide

/-- Claim C2 (amended): one image-search action issues at most two outbound
calls: a failed first call is never retried, and a second (fallback) call
happens exactly when the first call returns a non-empty reply from which no
image-URL candidate is extracted. -/
theorem image_tab_call_count_spec (r : Option String) :
    (image_tab_call_tags r).length ≤ 2 ∧
    (r = none → image_tab_call_tags r = ["Image Search"]) ∧
    ((image_tab_call_tags r).length = 2 ↔
      ∃ c, r = some c ∧ c ≠ "" ∧ image_urls_candidates c.data = []) := by
  cases r with
  | none => simp [image_tab_call_tags]
  | some c =>
    by_cases h1 : c = ""
    · subst h1; simp [image_tab_call_tags]
    · by_cases h2 : image_urls_candidates c.data = []
      · simp [image_tab_call_tags, h1, h2]
      · simp [image_tab_call_tags, h1, h2]

theorem image_tab_call_count_spec_witness :
    (image_tab_call_tags none).length ≤ 2 ∧
    image_tab_call_tags none = ["Image Search"] :=
  ⟨(image_tab_call_count_spec none).1, (image_tab_call_count_spec none).2.1 rfl⟩

/-! ## Claim C9: content of the property-facts prompt -/

theorem isSubstr_append_left (p s : List Char) :
    ∀ t : List Char, isSubstr p s = true → isSubstr p (t ++ s) = true := by
  intro t h
  induction t with
  | nil => simpa using h
  | cons c t ih =>
    show isSubstr p (c :: (t ++ s)) = true
    simp only [isSubstr, Bool.or_eq_true]
    exact Or.inr ih

/-- Claim C9 counterexample: the prompt built by `search_text_data` for the
default query mentions neither amenities nor any of the JSON keys the claim
requires (`images`, `price_inr`, `area_sqft`). -/
theorem text_data_prompt_no_json_shape_counterexample :
    isSubstr "amenities".data
      (text_data_prompt "Prestige Lakeside Habitat Bangalore".data) = false ∧
    isSubstr "images".data
      (text_data_prompt "Prestige Lakeside Habitat Bangalore".data) = false ∧
    isSubstr "price_inr".data
      (text_data_prompt "Prestige Lakeside Habitat Bangalore".data) = false ∧
    isSubstr "area_sqft".data
      (text_data_prompt "Prestige Lakeside Habitat Bangalore".data) = false :=
  ⟨by decide, by decide, by decide, by decide⟩

/-- Claim C9 (amended): for every query the property-facts prompt asks for
RERA details and status, builder/developer name, pricing for different
configurations, project specifications, and location and connectivity; the
fixed template around the query requests no JSON shape — it contains none
of `amenities`, `images`, `price_inr`, `area_sqft`, `JSON`. -/
theorem text_data_prompt_contents :
    (∀ q : List Char,
      isSubstr "- RERA details and status".data (text_data_prompt q) = true ∧
      isSubstr "- Builder/developer name".data (text_data_prompt q) = true ∧
      isSubstr "- Pricing for different configurations".data (text_data_prompt q) = true ∧
      isSubstr "- Project specifications".data (text_data_prompt q) = true ∧
      isSubstr "- Location and connectivity".data (text_data_prompt q) = true) ∧
    isSubstr "amenities".data (text_prompt_head ++ text_prompt_tail) = false ∧
    isSubstr "images".data (text_prompt_head ++ text_prompt_tail) = false ∧
    isSubstr "price_inr".data (text_prompt_head ++ text_prompt_tail) = false ∧
    isSubstr "area_sqft".data (text_prompt_head ++ text_prompt_tail) = false ∧
    isSubstr "JSON".data (text_prompt_head ++ text_prompt_tail) = false := by
  constructor
  · intro q
    refine ⟨isSubstr_append_left _ _ _ (by decide), isSubstr_append_left _ _ _ (by decide),
      isSubstr_append_left _ _ _ (by decide), isSubstr_append_left _ _ _ (by decide),
      isSubstr_append_left _ _ _ (by decide)⟩
  · exact ⟨by decide, by decide, by decide, by decide, by decide⟩

theorem text_data_prompt_contents_witness :
    isSubstr "- RERA details and status".data
      (text_data_prompt "Prestige Lakeside Habitat Bangalore".data) = true :=
  (text_data_prompt_contents.1 "Prestige Lakeside Habitat Bangalore".data).1

/-! ## Claim C7: failed requests record no partial state -/

/-- Claim C7 counterexample: HTTP status 304 — a non-2xx status below the
400-599 range of `raise_for_status` — with a parseable body is not treated
as a failure: the call is recorded into `api_calls` (and the cost added). -/
theorem make_api_request_redirect_state_counterexample :
    ((make_api_request ⟨0, []⟩ "sonar" "Image Search" "10:00:00"
        (.resp 304 (some ⟨none, none, "cached reply"⟩))).1).api_calls
      ≠ ([] : List ApiCall) := by
  simp [make_api_request]

/-- Claim C7 (amended): whenever `make_api_request` returns no result —
timeout, any other exception, an HTTP status in 400-599, or a body that
fails to parse as JSON — the session state (total cost and recorded calls)
is exactly as before; a non-2xx status outside 400-599 with a parseable
body, however, is treated as success and does record state. -/
theorem make_api_request_failure_no_state_change
    (s : AppState) (model tn now : String) (out : HttpOutcome)
    (h : (make_api_request s model tn now out).2.1 = none) :
    (make_api_request s model tn now out).1 = s := by
  cases out with
  | timeout => rfl
  | exn m => rfl
  | resp status body =>
    by_cases h400 : status = 400
    · subst h400
      cases body with
      | none => rfl
      | some b => rfl
    · by_cases h401 : status = 401
      · subst h401
        simp [make_api_request]
      · by_cases h429 : status = 429
        · subst h429
          simp [make_api_request, h400]
        · by_cases hrange : 400 ≤ status ∧ status < 600
          · simp [make_api_request, h400, h401, h429, hrange]
          · cases body with
            | none => simp [make_api_request, h400, h401, h429, hrange]
            | some b =>
              exfalso
              simp [make_api_request, h400, h401, h429, hrange] at h

theorem make_api_request_failure_no_state_change_witness :
    (make_api_request ⟨0, []⟩ "sonar" "Test" "10:00:00" .timeout).2.1 = none ∧
    (make_api_request ⟨0, []⟩ "sonar" "Test" "10:00:00" .timeout).1 = ⟨0, []⟩ :=
  ⟨rfl, make_api_request_failure_no_state_change ⟨0, []⟩ "sonar" "Test" "10:00:00" .timeout rfl⟩

/-! ## Claim C8: mapping of HTTP statuses to reported errors -/

/-- Claim C8 counterexample: status 100 — non-2xx — with a parseable body is
not reported as any failure: no error is surfaced and the parsed body is
returned as the result. -/
theorem make_api_request_informational_status_counterexample :
    (make_api_request ⟨0, []⟩ "sonar" "Test" "09:00:00"
        (.resp 100 (some ⟨none, none, "hello"⟩))).2.2 = none ∧
    (make_api_request ⟨0, []⟩ "sonar" "Test" "09:00:00"
        (.resp 100 (some ⟨none, none, "hello"⟩))).2.1
      = some ⟨none, none, "hello"⟩ :=
  ⟨rfl, rfl⟩

/-- Claim C8 (amended): status 400 (parseable body) is reported as a
request-format error carrying the server-provided message, 401 as an
invalid-credential error, 429 as a rate-limit error, and every other
status in the 400-599 range of `raise_for_status` as a generic failure
surfacing the status code — each with no result returned; a non-2xx status
outside 400-599 is not reported as a failure. -/
theorem make_api_request_status_mapping
    (s : AppState) (model tn now : String) (st : Nat) (b : ResponseJson) :
    make_api_request s model tn now (.resp 400 (some b))
      = (s, none, some (.badRequest (b.errorMessage.getD "Invalid request format"))) ∧
    make_api_request s model tn now (.resp 401 (some b))
      = (s, none, some .invalidApiKey) ∧
    make_api_request s model tn now (.resp 429 (some b))
      = (s, none, some .rateLimited) ∧
    (400 ≤ st → st < 600 → st ≠ 400 → st ≠ 401 → st ≠ 429 →
      make_api_request s model tn now (.resp st (some b))
        = (s, none, some (.httpStatusError st))) := by
  refine ⟨rfl, rfl, rfl, fun h1 h2 h3 h4 h5 => ?_⟩
  simp only [make_api_request, if_neg h3, if_neg h4, if_neg h5,
    if_pos (And.intro h1 h2)]

theorem make_api_request_status_mapping_witness :
    make_api_request ⟨0, []⟩ "sonar" "Test" "09:00:00"
        (.resp 500 (some ⟨none, none, ""⟩))
      = (⟨0, []⟩, none, some (.httpStatusError 500)) :=
  (make_api_request_status_mapping ⟨0, []⟩ "sonar" "Test" "09:00:00" 500
      ⟨none, none, ""⟩).2.2.2 (by decide) (by decide) (by decide) (by decide)
      (by decide)

/-! ## Claim C10: token defaults when `usage` is missing fields -/

/-- Claim C10: for a successful (2xx) response, a missing `usage` object is
charged as exactly 100 input and 100 output tokens, and when `usage` is
present each individually missing token count defaults to 100. -/
theorem make_api_request_usage_default_tokens
    (s : AppState) (model tn now : String) (st : Nat) (em : Option String)
    (c : String) (u : Usage) (h1 : 200 ≤ st) (h2 : st < 300) :
    (make_api_request s model tn now (.resp st (some ⟨em, none, c⟩))).1
      = ⟨s.total_cost + calculate_cost model 100 100,
         s.api_calls ++ [⟨now, tn, calculate_cost model 100 100, 200⟩]⟩ ∧
    (u.prompt_tokens = none →
      (make_api_request s model tn now (.resp st (some ⟨em, some u, c⟩))).1.total_cost
        = s.total_cost + calculate_cost model 100 (u.completion_tokens.getD 100)) ∧
    (u.completion_tokens = none →
      (make_api_request s model tn now (.resp st (some ⟨em, some u, c⟩))).1.total_cost
        = s.total_cost + calculate_cost model (u.prompt_tokens.getD 100) 100) := by
  have h400 : ¬(st = 400) := by omega
  have h401 : ¬(st = 401) := by omega
  have h429 : ¬(st = 429) := by omega
  have hrange : ¬(400 ≤ st ∧ st < 600) := by omega
  refine ⟨?_, fun hp => ?_, fun hc => ?_⟩
  · simp [make_api_request, h400, h401, h429, hrange]
  · simp [make_api_request, h400, h401, h429, hrange, hp]
  · simp [make_api_request, h400, h401, h429, hrange, hc]

theorem make_api_request_usage_default_tokens_witness :
    (make_api_request ⟨0, []⟩ "sonar" "Text Data" "11:00:00"
        (.resp 200 (some ⟨none, none, "a reply"⟩))).1
      = ⟨0 + calculate_cost "sonar" 100 100,
         [] ++ [⟨"11:00:00", "Text Data", calculate_cost "sonar" 100 100, 200⟩]⟩ :=
  (make_api_request_usage_default_tokens ⟨0, []⟩ "sonar" "Text Data" "11:00:00"
      200 none "a reply" ⟨none, none⟩ (by decide) (by decide)).1

/-! ## Claim C3: the greedy outer-brace candidate region -/

theorem dropWhile_head_false (p : Char → Bool) :
    ∀ (l : List Char) (c : Char) (rest : List Char),
      l.dropWhile p = c :: rest → p c = false := by
  intro l
  induction l with
  | nil => intro c rest h; cases h
  | cons a t ih =>
    intro c rest h
    rw [List.dropWhile_cons] at h
    by_cases hpa : p a = true
    · rw [if_pos hpa] at h
      exact ih c rest h
    · rw [if_neg hpa] at h
      injection h with h1 _
      subst h1
      simpa using hpa

/-- Claim C3: structured property extraction takes the substring from the
first opening brace to the last closing brace as the JSON candidate region
(the part before it holds no opening brace, the part after it no closing
brace, and the region starts with the opening and ends with the closing
brace), and for a reply with no brace characters it fails with
`NO_JSON_FOUND` instead of returning a record. -/
theorem extract_property_record_candidate_spec (reply : List Char) :
    (('\x7b' ∉ reply ∨ '\x7d' ∉ reply) →
      extractPropertyRecordCandidate reply = .error .NO_JSON_FOUND) ∧
    ∀ region, extractPropertyRecordCandidate reply = .ok region →
      ∃ pre post, reply = pre ++ region ++ post ∧
        '\x7b' ∉ pre ∧ '\x7d' ∉ post ∧
        region.head? = some '\x7b' ∧ region.getLast? = some '\x7d' := by
  constructor
  · intro h
    unfold extractPropertyRecordCandidate jsonCandidate
    rcases h with h | h
    · have h1 : reply.dropWhile (fun c => c != '\x7b') = [] := by
        rw [List.dropWhile_eq_nil_iff]
        exact fun a ha => bne_iff_ne.mpr fun he => h (he ▸ ha)
      simp [h1]
    · have h1 : (reply.dropWhile fun c => c != '\x7b').reverse.dropWhile
          (fun c => c != '\x7d') = [] := by
        rw [List.dropWhile_eq_nil_iff]
        intro a ha
        rw [List.mem_reverse] at ha
        exact bne_iff_ne.mpr fun he =>
          h (he ▸ (List.dropWhile_sublist _).subset ha)
      simp [h1]
  · intro region hr
    have hjson : jsonCandidate reply = some region := by
      unfold extractPropertyRecordCandidate at hr
      cases hj : jsonCandidate reply with
      | none => rw [hj] at hr; cases hr
      | some r => rw [hj] at hr; injection hr with h'; rw [h']
    simp only [jsonCandidate] at hjson
    set fb := reply.dropWhile (fun c => c != '\x7b') with hfbdef
    set dw2 := fb.reverse.dropWhile (fun c => c != '\x7d') with hdw2def
    by_cases he : dw2.reverse.isEmpty = true
    · rw [if_pos he] at hjson; cases hjson
    · rw [if_neg he] at hjson
      injection hjson with heq
      have hne : region ≠ [] := fun hn => he (List.isEmpty_iff.mpr (heq.trans hn))
      have hsplit1 : reply.takeWhile (fun c => c != '\x7b') ++ fb = reply := by
        rw [hfbdef]; exact List.takeWhile_append_dropWhile _ _
      have hsplit2 : fb.reverse.takeWhile (fun c => c != '\x7d') ++ dw2 = fb.reverse := by
        rw [hdw2def]; exact List.takeWhile_append_dropWhile _ _
      have h2 : dw2.reverse ++ (fb.reverse.takeWhile fun c => c != '\x7d').reverse
          = fb := by
        have h2a := congrArg List.reverse hsplit2
        rw [List.reverse_append, List.reverse_reverse] at h2a
        exact h2a
      rw [heq] at h2
      refine ⟨reply.takeWhile (fun c => c != '\x7b'),
        (fb.reverse.takeWhile fun c => c != '\x7d').reverse, ?_, ?_, ?_, ?_, ?_⟩
      · rw [List.append_assoc, h2]
        exact hsplit1.symm
      · intro hmem
        have hbad := List.mem_takeWhile_imp hmem
        simp at hbad
      · intro hmem
        rw [List.mem_reverse] at hmem
        have hbad := List.mem_takeWhile_imp hmem
        simp at hbad
      · cases hfb2 : fb with
        | nil =>
          exfalso
          apply hne
          rw [hfb2] at h2
          exact (List.append_eq_nil.mp h2).1
        | cons a r =>
          have hpa : (fun c => c != '\x7b') a = false := by
            apply dropWhile_head_false (fun c => c != '\x7b') reply a r
            rw [← hfbdef]; exact hfb2
          have ha : a = '\x7b' := bne_eq_false_iff_eq.mp hpa
          have hh : (region ++ (fb.reverse.takeWhile fun c => c != '\x7d').reverse).head?
              = region.head? := List.head?_append_of_ne_nil region hne
          rw [h2, hfb2, List.head?_cons] at hh
          rw [← hh, ha]
      · cases hdw : dw2 with
        | nil =>
          exfalso
          apply hne
          rw [← heq, hdw]
          rfl
        | cons b r2 =>
          have hpb : (fun c => c != '\x7d') b = false := by
            apply dropWhile_head_false (fun c => c != '\x7d') fb.reverse b r2
            rw [← hdw2def]; exact hdw
          have hb : b = '\x7d' := bne_eq_false_iff_eq.mp hpb
          have hlast : region.getLast? = some b := by
            rw [← heq, hdw, List.reverse_cons]
            exact List.getLast?_concat _
          rw [hlast, hb]

theorem extract_property_record_candidate_spec_witness :
    ('\x7b' ∉ "a reply with no braces at all".data ∨
      '\x7d' ∉ "a reply with no braces at all".data) ∧
    extractPropertyRecordCandidate "a reply with no braces at all".data
      = .error .NO_JSON_FOUND :=
  ⟨Or.inl (by decide),
   (extract_property_record_candidate_spec "a reply with no braces at all".data).1
     (Or.inl (by decide))⟩
